import Mathlib

/-!
Verification development for the macro-aware template compilation engine in
core/dbt/clients/jinja.py.

Each section embeds one component of the source file as executable Lean
definitions and proves the corresponding specification claims.  Machinery
supplied by external collaborators (the owning node's dependency operation,
the compiler-error domain, the template engine's native-concatenation step,
`deep_map` from dbt.utils and the block lexer from dbt/clients/_jinja_blocks.py)
is modelled at its interface boundary; those definitions carry doc comments
starting with "Modelled from the spec:".
-/

/-! ### Python values

Shared value domain for rendered template output, macro results and test
kwargs.  Dicts are association lists keyed by strings, matching the JSON-like
shapes that flow through the engine. -/

inductive PyVal where
  | str (s : String)
  | int (n : Int)
  | bool (b : Bool)
  | noneV
  | list (xs : List PyVal)
  | dict (xs : List (String × PyVal))
deriving Repr

/-! ### Macro call stack and dependency tracking (jinja.py lines 198-263)

`MacroStack` embeds the class at lines 198-213: a (per-thread) list of macro
unique ids, with `push`/`pop`/`depth`.  The Python `pop` first removes the
last element (IndexError on an empty list) and then raises InternalException
when the removed id differs from the expected one; both failures are mapped
to the `StackError` domain. -/

structure MacroStack where
  call_stack : List String
deriving Repr, DecidableEq

inductive StackError where
  | indexError
  | internalException (msg : String)
deriving Repr, DecidableEq

def MacroStack.depth (s : MacroStack) : Nat := s.call_stack.length

def MacroStack.push (s : MacroStack) (uid : String) : MacroStack :=
  { call_stack := s.call_stack ++ [uid] }

def MacroStack.pop (s : MacroStack) (uid : String) : Except StackError MacroStack :=
  match s.call_stack.getLast? with
  | none => .error .indexError
  | some got =>
      if got = uid then .ok { call_stack := s.call_stack.dropLast }
      else .error (.internalException ("popped " ++ got ++ ", expected " ++ uid))

/-- Modelled from the spec: the owning node collaborator (spec section 6) only
exposes a dependency-registration operation; `node.depends_on.add_macro(uid)`
appends the macro's unique id to the node's macro dependencies. -/
structure NodeState where
  depends_on : List String
deriving Repr, DecidableEq

def NodeState.add_macro_dependency (n : NodeState) (uid : String) : NodeState :=
  { depends_on := n.depends_on ++ [uid] }

/-- The mutable state touched by `MacroGenerator.track_call`: the thread's
macro call stack and the owning node's dependency edges. -/
structure TrackState where
  stack : MacroStack
  node : NodeState
deriving Repr, DecidableEq

mutual

/-- A (finite) chain of nested macro invocations through
`MacroGenerator.__call__`: each call names the invoked macro's `unique_id`,
the nested invocations its body makes, and the body's own outcome once all
children have returned (`some v` = normal return value, `none` = the body
raises).  If a child raises, the remaining body is skipped and the exception
propagates through the parent. -/
inductive CallTree where
  | call (uid : String) (body : CallForest) (result : Option Nat)

inductive CallForest where
  | nil
  | cons (head : CallTree) (tail : CallForest)

end

def CallTree.uid : CallTree → String
  | .call u _ _ => u

mutual

/-- Embeds `MacroGenerator.__call__` (lines 261-263) running `track_call`
(lines 245-259) around the macro body.  `hasStack`/`hasNode` record whether
the generator was constructed with a stack resp. node; when either is
missing, `track_call` just yields (line 247-248).  Otherwise: register a
dependency edge iff depth == 0, push the unique id, run the body, and pop in
a `finally` block — the pop executes even when the body raised.  (A `pop`
failure would escape the `finally`; the theorems below show that branch is
unreachable.) -/
def runCallG (hasStack hasNode : Bool) : CallTree → TrackState → Except StackError (TrackState × Option Nat)
  | .call uid body res, st =>
    if hasStack = false ∨ hasNode = false then
      match runForestG hasStack hasNode body st with
      | .error e => .error e
      | .ok (st1, ok) => .ok (st1, if ok then res else none)
    else
      let st1 : TrackState :=
        if st.stack.depth = 0 then { st with node := st.node.add_macro_dependency uid } else st
      let st2 : TrackState := { st1 with stack := st1.stack.push uid }
      match runForestG hasStack hasNode body st2 with
      | .error e => .error e
      | .ok (st3, ok) =>
        match st3.stack.pop uid with
        | .error e => .error e
        | .ok stk => .ok ({ st3 with stack := stk }, if ok then res else none)

/-- Sequential invocation of the nested calls of a macro body; `true` means
every child returned normally, `false` means some child raised (aborting the
rest of the body). -/
def runForestG (hasStack hasNode : Bool) : CallForest → TrackState → Except StackError (TrackState × Bool)
  | .nil, st => .ok (st, true)
  | .cons c rest, st =>
    match runCallG hasStack hasNode c st with
    | .error e => .error e
    | .ok (st1, some _) => runForestG hasStack hasNode rest st1
    | .ok (st1, none) => .ok (st1, false)

end

mutual

/-- The value/exception outcome of an invocation chain, independent of any
tracking state. -/
def treeOutcome : CallTree → Option Nat
  | .call _ body res => if forestOk body then res else none

/-- Whether all the nested invocations of a body return normally. -/
def forestOk : CallForest → Bool
  | .nil => true
  | .cons c rest =>
    match treeOutcome c with
    | some _ => forestOk rest
    | none => false

end

theorem getLast?_append_singleton (l : List α) (a : α) : (l ++ [a]).getLast? = some a := by
  induction l with
  | nil => rfl
  | cons x xs ih =>
    cases xs with
    | nil => rfl
    | cons y ys => simp [List.getLast?] at ih ⊢

theorem dropLast_append_singleton (l : List α) (a : α) : (l ++ [a]).dropLast = l := by
  induction l with
  | nil => rfl
  | cons x xs ih =>
    cases xs with
    | nil => rfl
    | cons y ys => simp [List.dropLast] at ih ⊢

@[simp] theorem MacroStack.pop_push (s : MacroStack) (uid : String) :
    (s.push uid).pop uid = .ok s := by
  simp [MacroStack.push, MacroStack.pop, getLast?_append_singleton, dropLast_append_singleton]

@[simp] theorem MacroStack.depth_push (s : MacroStack) (uid : String) :
    (s.push uid).depth = s.depth + 1 := by
  simp [MacroStack.push, MacroStack.depth]

mutual

/-- With both a stack and a node supplied, an invocation chain always
succeeds at the stack level: the final stack is the initial one, the node
gains a dependency edge exactly when the call started at depth 0, and the
returned value is the chain's outcome. -/
theorem runCallG_tracked (t : CallTree) (st : TrackState) :
    runCallG true true t st =
      .ok ({ stack := st.stack,
             node := if st.stack.depth = 0 then st.node.add_macro_dependency t.uid
                     else st.node },
           treeOutcome t) := by
  cases t with
  | call uid body res =>
    have hb := runForestG_tracked body
      { stack := (if st.stack.depth = 0
                  then { st with node := st.node.add_macro_dependency uid }
                  else st).stack.push uid,
        node := (if st.stack.depth = 0
                 then { st with node := st.node.add_macro_dependency uid }
                 else st).node }
      (by by_cases h : st.stack.depth = 0 <;> simp [h])
    by_cases h : st.stack.depth = 0 <;>
      simp_all [runCallG, CallTree.uid, treeOutcome, h]

/-- Nested invocations of a body, started at nonzero depth, restore the state
exactly and register no dependency edges. -/
theorem runForestG_tracked (f : CallForest) (st : TrackState) (h : st.stack.depth ≠ 0) :
    runForestG true true f st = .ok (st, forestOk f) := by
  cases f with
  | nil => rfl
  | cons c rest =>
    have hc := runCallG_tracked c st
    have hr := runForestG_tracked rest st h
    simp only [runForestG, forestOk, hc, if_neg h]
    cases ho : treeOutcome c with
    | some v => simp [ho, hr]
    | none => simp [ho]

end

mutual

/-- With the stack or the node missing, `track_call` just yields: the state
is never touched and the body runs as usual. -/
theorem runCallG_untracked (hs hn : Bool) (h : hs = false ∨ hn = false)
    (t : CallTree) (st : TrackState) :
    runCallG hs hn t st = .ok (st, treeOutcome t) := by
  cases t with
  | call uid body res =>
    have hb := runForestG_untracked hs hn h body st
    simp [runCallG, treeOutcome, hb, if_pos h]

theorem runForestG_untracked (hs hn : Bool) (h : hs = false ∨ hn = false)
    (f : CallForest) (st : TrackState) :
    runForestG hs hn f st = .ok (st, forestOk f) := by
  cases f with
  | nil => rfl
  | cons c rest =>
    have hc := runCallG_untracked hs hn h c st
    have hr := runForestG_untracked hs hn h rest st
    simp only [runForestG, forestOk, hc]
    cases ho : treeOutcome c with
    | some v => simp [ho, hr]
    | none => simp [ho]

end

/-- C1: for every chain of nested macro invocations through
`MacroGenerator.__call__` with stack and node supplied, only the invocation
made at call-stack depth 0 registers a dependency edge from the owning node
to the macro's unique id (via `add_macro`); every inner invocation, at
depth > 0, registers no edge — the final dependency list is the initial one
extended by exactly the outermost macro's unique id, regardless of how many
nested invocations the chain makes. -/
theorem claim_C1_depth0_registers_single_edge (t : CallTree) (st : TrackState)
    (h : st.stack.depth = 0) :
    runCallG true true t st =
      .ok ({ stack := st.stack, node := st.node.add_macro_dependency t.uid },
           treeOutcome t) := by
  have hr := runCallG_tracked t st
  rw [if_pos h] at hr
  exact hr

/-- Witness for C1: a chain of depth 3 run from an empty stack registers only
the outermost macro's unique id. -/
theorem claim_C1_witness :
    ({ stack := { call_stack := [] }, node := { depends_on := [] } } : TrackState).stack.depth = 0 ∧
    runCallG true true
      (.call "macro.pkg.m0"
        (.cons (.call "macro.pkg.m1"
          (.cons (.call "macro.pkg.m2" .nil (some 1)) .nil) (some 2)) .nil) (some 3))
      { stack := { call_stack := [] }, node := { depends_on := [] } } =
      .ok ({ stack := { call_stack := [] },
             node := { depends_on := ["macro.pkg.m0"] } }, some 3) :=
  ⟨rfl, claim_C1_depth0_registers_single_edge _ _ rfl⟩

/-- C2: the macro call stack keeps strict push/pop discipline.  (a) For every
invocation through `MacroGenerator.__call__` with stack and node supplied,
the stack after the invocation equals the stack before it, whether the body
returns normally or raises (the returned `r` is `none` exactly when the body
raised, and the pop still ran).  (b) `MacroStack.pop uid` raises the fatal
internal error whenever the last pushed identity differs from `uid`. -/
theorem claim_C2_push_pop_balance :
    (∀ (t : CallTree) (st : TrackState), ∃ stN r,
        runCallG true true t st = .ok (stN, r) ∧ stN.stack = st.stack) ∧
    (∀ (s : MacroStack) (uid got : String),
        s.call_stack.getLast? = some got → got ≠ uid →
        s.pop uid = .error (.internalException ("popped " ++ got ++ ", expected " ++ uid))) := by
  constructor
  · intro t st
    exact ⟨_, _, runCallG_tracked t st, rfl⟩
  · intro s uid got hg hne
    simp [MacroStack.pop, hg, hne]

/-- Witness for C2: a raising invocation (body outcome `none`) from a
nonempty stack restores the stack; popping "b" when "a" is on top raises the
internal error. -/
theorem claim_C2_witness :
    (∃ stN r,
        runCallG true true (.call "macro.pkg.m" .nil none)
          { stack := { call_stack := ["macro.pkg.outer"] }, node := { depends_on := [] } } =
          .ok (stN, r) ∧ stN.stack = { call_stack := ["macro.pkg.outer"] }) ∧
    MacroStack.pop { call_stack := ["a"] } "b" =
      .error (.internalException "popped a, expected b") :=
  ⟨claim_C2_push_pop_balance.1 _ _,
   claim_C2_push_pop_balance.2 { call_stack := ["a"] } "b" "a" rfl (by decide)⟩

/-- C10: a `MacroGenerator` constructed with no stack or no node performs no
call tracking at all — the tracking state (stack and dependency edges) is
returned untouched — and the invocation still runs, returning exactly the
result a tracked invocation of the same chain would return. -/
theorem claim_C10_no_tracking (hs hn : Bool) (h : hs = false ∨ hn = false)
    (t : CallTree) (st : TrackState) :
    runCallG hs hn t st = .ok (st, treeOutcome t) ∧
    ∀ st2 : TrackState, ∃ stN : TrackState,
      runCallG true true t st2 = .ok (stN, treeOutcome t) :=
  ⟨runCallG_untracked hs hn h t st,
   fun st2 => ⟨_, runCallG_tracked t st2⟩⟩

/-- Witness for C10: a stack-less generator invocation leaves the state
untouched and returns the same value as the tracked invocation. -/
theorem claim_C10_witness :
    runCallG false true
      (.call "macro.pkg.m" (.cons (.call "macro.pkg.inner" .nil (some 7)) .nil) (some 9))
      { stack := { call_stack := [] }, node := { depends_on := [] } } =
      .ok ({ stack := { call_stack := [] }, node := { depends_on := [] } }, some 9) ∧
    ∃ stN : TrackState,
      runCallG true true
        (.call "macro.pkg.m" (.cons (.call "macro.pkg.inner" .nil (some 7)) .nil) (some 9))
        { stack := { call_stack := [] }, node := { depends_on := [] } } =
        .ok (stN, some 9) :=
  ⟨(claim_C10_no_tracking false true (Or.inl rfl) _ _).1,
   (claim_C10_no_tracking false true (Or.inl rfl)
      (.call "macro.pkg.m" (.cons (.call "macro.pkg.inner" .nil (some 7)) .nil) (some 9))
      { stack := { call_stack := [] }, node := { depends_on := [] } }).2
      { stack := { call_stack := [] }, node := { depends_on := [] } }⟩

/-! ### Exception translation at the macro-invocation boundary
(jinja.py lines 155-196 and 235-243) -/

/-- The exception domain crossing `BaseMacroGenerator.call_macro` under
`MacroGenerator.exception_handler`.  `compilationException` carries a message,
an optional attributed node/macro and the attribution chain (`e.stack`);
`macroReturn` is the distinguished early-return signal carrying a value. -/
inductive PyExn where
  | typeError (msg : String)
  | templateRuntimeError (msg : String)
  | compilationException (msg : String) (node : Option String) (stack : List String)
  | macroReturn (v : PyVal)
  | internalException (msg : String)
deriving Repr

/-- Modelled from the spec: `raise_compiler_error(msg, node)` from
dbt.exceptions (not under src/) raises a compiler error with the given
message, attributed to the given node/macro, with an empty attribution
chain. -/
def raise_compiler_error_exn (msg : String) (node : Option String) : PyExn :=
  .compilationException msg node []

/-- Embeds `BaseMacroGenerator.call_macro` (lines 182-195) specialised to
`MacroGenerator`, whose `exception_handler` (lines 235-243) also appends the
invoked macro to the attribution chain of an in-flight compiler error.
`contextSet` models `self.context is not None`; `body` is the outcome of
`macro(*args, **kwargs)`.  The inner `try` catches only `MacroReturn` and
returns its carried value; the surrounding handler translates `TypeError`
and `TemplateRuntimeError` via `raise_compiler_error(str(e), self.macro)`
and re-raises a `CompilationException` after `e.stack.append(self.macro)`. -/
def call_macro_result (contextSet : Bool) (macroName : String)
    (body : Except PyExn PyVal) : Except PyExn PyVal :=
  if contextSet = false then
    .error (.internalException "Context is still None in call_macro!")
  else
    let inner : Except PyExn PyVal :=
      match body with
      | .error (.macroReturn v) => .ok v
      | r => r
    match inner with
    | .error (.typeError m) => .error (raise_compiler_error_exn m (some macroName))
    | .error (.templateRuntimeError m) => .error (raise_compiler_error_exn m (some macroName))
    | .error (.compilationException m n stk) =>
        .error (.compilationException m n (stk ++ [macroName]))
    | r => r

/-- C4: at the macro-invocation boundary (with the context established),
exceptions are translated exactly as follows: a `TypeError` or template
runtime error becomes a compiler error attributed to the invoked macro; an
already-raised compiler error has the invoked macro appended to its
attribution chain and is re-raised otherwise unchanged; the early-return
signal is caught and its carried value becomes the call's normal return
value; and a normal return passes through untouched. -/
theorem claim_C4_exception_translation (macroName m : String) (n : Option String)
    (stk : List String) (v : PyVal) :
    call_macro_result true macroName (.error (.typeError m)) =
      .error (.compilationException m (some macroName) []) ∧
    call_macro_result true macroName (.error (.templateRuntimeError m)) =
      .error (.compilationException m (some macroName) []) ∧
    call_macro_result true macroName (.error (.compilationException m n stk)) =
      .error (.compilationException m n (stk ++ [macroName])) ∧
    call_macro_result true macroName (.error (.macroReturn v)) = .ok v ∧
    call_macro_result true macroName (.ok v) = .ok v :=
  ⟨rfl, rfl, rfl, rfl, rfl⟩

/-! ### Deferred-reference sentinel (jinja.py lines 342-380) -/

deriving instance DecidableEq for Except

/-- Embeds `name.startswith('__') and name.endswith('__')` (line 343), on
the character list so it evaluates by `decide`. -/
def _is_dunder_name (s : String) : Bool :=
  List.isPrefixOf [ '_', '_'] s.toList && List.isSuffixOf [ '_', '_'] s.toList

/-- The sentinel instances produced by the `Undefined` class that
`create_undefined(node)` returns: the closed-over owning node, the
last-accessed name and the hint.  (The Python class also forces
`unsafe_callable = False` and `alters_data = False` for the sandbox; those
flags play no role in the claims.) -/
structure Undefined where
  node : Option String
  name : Option String
  hint : Option String
deriving Repr, DecidableEq

/-- The factory `create_undefined(node)` (lines 346-380) closes over the owning node; the
engine then instantiates the returned class with a hint and a name. -/
def create_undefined (node : Option String) (hint uname : Option String) : Undefined :=
  { node := node, name := uname, hint := hint }

/-- Embeds `Undefined.__getitem__` (lines 358-361): index access propagates the
sentinel unchanged. -/
def Undefined.getitem (u : Undefined) (_key : String) : Undefined := u

/-- Embeds `Undefined.__getattr__` (lines 363-372): accessing `name` or a dunder
name raises AttributeError; any other attribute access returns a fresh
sentinel of the same class (same closed-over node) carrying the accessed
name and the old hint. -/
def Undefined.getattr (u : Undefined) (aname : String) : Except String Undefined :=
  if aname = "name" ∨ _is_dunder_name aname then
    .error ("'Undefined' object has no attribute '" ++ aname ++ "'")
  else .ok { u with name := some aname }

/-- Embeds `Undefined.__call__` (lines 374-375): calling the sentinel returns the
sentinel itself. -/
def Undefined.call (u : Undefined) : Undefined := u

/-- Python's `str(...)` of the stored name (`None` when absent), as used by
the f-string in `__reduce__`. -/
def strOfPyName : Option String → String
  | some n => n
  | none => "None"

/-- Embeds `Undefined.__reduce__` (lines 377-378): finalizing the sentinel raises
`raise_compiler_error(f'{self.name} is undefined', node=node)`. -/
def Undefined.reduce (u : Undefined) : PyExn :=
  raise_compiler_error_exn (strOfPyName u.name ++ " is undefined") u.node

/-- Whether an `Except` result is a success. -/
def exOk : Except ε α → Bool
  | .ok _ => true
  | .error _ => false

/-- Counterexample to C3 as stated: not every attribute access on the
sentinel yields a sentinel — accessing the dunder attribute `__html__`
raises AttributeError immediately (jinja.py lines 364-368), before any value
is demanded. -/
theorem claim_C3_counterexample :
    (create_undefined (some "model.pkg.m") none (some "my_var")).getattr "__html__" =
      .error "'Undefined' object has no attribute '__html__'" ∧
    exOk ((create_undefined (some "model.pkg.m") none (some "my_var")).getattr "__html__") = false :=
  ⟨by decide, by decide⟩

/-- C3 (amended): chained index access and call syntax on the sentinel always
return the sentinel; attribute access returns a fresh sentinel (same node,
updated name, hint preserved) for every attribute name except `name` and
dunder names, which raise AttributeError; and the sentinel fails only when
its value is actually demanded (`__reduce__`), raising a compiler error
whose message names the unresolved variable and which carries the
originating node. -/
theorem claim_C3_sentinel_propagation (u : Undefined) (key aname : String)
    (h1 : aname ≠ "name") (h2 : _is_dunder_name aname = false) :
    u.getitem key = u ∧
    u.call = u ∧
    u.getattr aname = .ok { node := u.node, name := some aname, hint := u.hint } ∧
    u.reduce = .compilationException (strOfPyName u.name ++ " is undefined") u.node [] := by
  refine ⟨rfl, rfl, ?_, rfl⟩
  simp [Undefined.getattr, h1, h2]

/-- Witness for C3 (amended): concrete sentinel, index/attribute/call chain
and finalization. -/
theorem claim_C3_witness :
    ("col" ≠ "name") ∧
    (_is_dunder_name "col" = false) ∧
    ((create_undefined (some "model.pkg.m") none (some "my_var")).getitem "k" =
        create_undefined (some "model.pkg.m") none (some "my_var") ∧
      (create_undefined (some "model.pkg.m") none (some "my_var")).call =
        create_undefined (some "model.pkg.m") none (some "my_var") ∧
      (create_undefined (some "model.pkg.m") none (some "my_var")).getattr "col" =
        .ok { node := some "model.pkg.m", name := some "col", hint := none } ∧
      (create_undefined (some "model.pkg.m") none (some "my_var")).reduce =
        .compilationException "my_var is undefined" (some "model.pkg.m") []) :=
  ⟨by decide, by decide,
   claim_C3_sentinel_propagation (create_undefined (some "model.pkg.m") none (some "my_var"))
     "k" "col" (by decide) (by decide)⟩

/-! ### Native value rendering (jinja.py lines 101-125) -/

/-- Concatenation of a list of strings (plain fold, kept executable). -/
def strConcat : List String → String
  | [] => ""
  | s :: ss => s ++ strConcat ss

/-- Python's `\s` whitespace class. -/
def isPySpace (c : Char) : Bool :=
  c == ' ' || c == '\t' || c == '\n' || c == '\r' || c == '\x0b' || c == '\x0c'

def skipSpaces (cs : List Char) : List Char := cs.dropWhile isPySpace

def isDigitCh (c : Char) : Bool :=
  [ '0', '1', '2', '3', '4', '5', '6', '7', '8', '9'].contains c

def digitsToNat : List Char → Nat → Nat
  | [], acc => acc
  | c :: cs, acc => digitsToNat cs (acc * 10 + (c.toNat - 48))

/-- Consume a nonempty digit run as a (non-negative) integer literal. -/
def parseIntPart (cs : List Char) : Option (PyVal × List Char) :=
  let ds := cs.takeWhile isDigitCh
  let rest := cs.dropWhile isDigitCh
  if ds = [] then none else some (.int (Int.ofNat (digitsToNat ds 0)), rest)

def negV : PyVal → PyVal
  | .int n => .int (-n)
  | v => v

/-- Strip an exact character prefix. -/
def stripPrefixChars : List Char → List Char → Option (List Char)
  | [], cs => some cs
  | _ :: _, [] => none
  | a :: p, c :: cs => if a = c then stripPrefixChars p cs else none

/-- Scan up to the matching closing quote (no escape handling). -/
def scanQuote (q : Char) : List Char → Option (List Char × List Char)
  | [] => none
  | c :: cs =>
    if c = q then some ([], cs)
    else
      match scanQuote q cs with
      | some (s, r) => some (c :: s, r)
      | none => none

mutual

/-- Modelled from the spec: the literal-recovery step of the engine's native
concatenation (`ast.literal_eval` with quotes preserved; spec section 4.4c:
"numbers, booleans, collections, quoted strings with quotes preserved").
Covers integers, `True`/`False`/`None`, (possibly nested) list literals, and
quoted strings which keep their quotes.  Fuel-indexed recursive descent;
`literal_eval` below supplies ample fuel. -/
def parseLit : Nat → List Char → Option (PyVal × List Char)
  | 0, _ => none
  | fuel + 1, cs0 =>
    let cs := skipSpaces cs0
    match cs with
    | '[' :: rest =>
      (match skipSpaces rest with
       | ']' :: rest2 => some (.list [], rest2)
       | _ =>
         match parseItems fuel rest with
         | some (xs, rest2) => some (.list xs, rest2)
         | none => none)
    | '\'' :: rest =>
      (match scanQuote '\'' rest with
       | some (inner, rest2) => some (.str (String.mk ([ '\''] ++ inner ++ [ '\''])), rest2)
       | none => none)
    | '"' :: rest =>
      (match scanQuote '"' rest with
       | some (inner, rest2) => some (.str (String.mk ([ '"'] ++ inner ++ [ '"'])), rest2)
       | none => none)
    | '-' :: rest =>
      (match parseIntPart rest with
       | some (v, r) => some (negV v, r)
       | none => none)
    | _ =>
      match stripPrefixChars ("True".toList) cs with
      | some rest => some (.bool true, rest)
      | none =>
        match stripPrefixChars ("False".toList) cs with
        | some rest => some (.bool false, rest)
        | none =>
          match stripPrefixChars ("None".toList) cs with
          | some rest => some (.noneV, rest)
          | none => parseIntPart cs

/-- Comma-separated list elements up to the closing bracket. -/
def parseItems : Nat → List Char → Option (List PyVal × List Char)
  | 0, _ => none
  | fuel + 1, cs =>
    match parseLit fuel cs with
    | none => none
    | some (v, rest) =>
      match skipSpaces rest with
      | ',' :: rest2 =>
        (match parseItems fuel rest2 with
         | some (xs, rest3) => some (v :: xs, rest3)
         | none => none)
      | ']' :: rest2 => some ([v], rest2)
      | _ => none

end

/-- Modelled from the spec: parse a whole rendered string as a literal value,
or fail. -/
def literal_eval (s : String) : Option PyVal :=
  match parseLit (2 * s.length + 2) s.toList with
  | some (v, rest) => if skipSpaces rest = [] then some v else none
  | none => none

mutual

/-- Python `repr` of a value, used when joining multiple output fragments. -/
def pyRepr : PyVal → String
  | .str s => "'" ++ s ++ "'"
  | .int n => toString n
  | .bool true => "True"
  | .bool false => "False"
  | .noneV => "None"
  | .list xs => "[" ++ pyReprJoin xs ++ "]"
  | .dict xs => "\x7b" ++ pyReprDictJoin xs ++ "\x7d"

def pyReprJoin : List PyVal → String
  | [] => ""
  | [x] => pyRepr x
  | x :: xs => pyRepr x ++ ", " ++ pyReprJoin xs

def pyReprDictJoin : List (String × PyVal) → String
  | [] => ""
  | [(k, v)] => "'" ++ k ++ "': " ++ pyRepr v
  | (k, v) :: xs => "'" ++ k ++ "': " ++ pyRepr v ++ ", " ++ pyReprDictJoin xs

end

/-- Python `str` of a value. -/
def pyStr : PyVal → String
  | .str s => s
  | v => pyRepr v

/-- Attempt literal recovery on a string result; non-strings pass through. -/
def nativeFinalize : PyVal → PyVal
  | .str s =>
    (match literal_eval s with
     | some v => v
     | none => .str s)
  | v => v

/-- Modelled from the spec: the engine's native concatenation (spec section
4.4c) — no output yields None, a single produced node is taken as-is,
otherwise all fragments are joined as text; the result then goes through
literal recovery. -/
def native_concat : List PyVal → PyVal
  | [] => .noneV
  | [x] => nativeFinalize x
  | xs => nativeFinalize (.str (strConcat (xs.map pyStr)))

/-- Embeds `NativeSandboxTemplate.render` (lines 108-122): render the template's
output fragments through `native_concat`; any exception raised during
rendering is routed to `self.environment.handle_exception()` (modelled by
the `handle` parameter, the environment's standard exception-to-error
translation). -/
def NativeSandboxTemplate_render (handle : PyExn → PyExn)
    (rendered : Except PyExn (List PyVal)) : Except PyExn PyVal :=
  match rendered with
  | .ok nodes => .ok (native_concat nodes)
  | .error e => .error (handle e)

/-- C5: native rendering recovers typed values — output text that parses as a
literal yields the corresponding native value (in particular "[1, 2, 3]"
yields the three-element numeric list, not the string), unparseable output
(e.g. "hello") is returned as the string unchanged, and any exception raised
during rendering is routed to the environment's standard
exception-to-error translation. -/
theorem claim_C5_native_rendering (handle : PyExn → PyExn) (s : String)
    (v : PyVal) (e : PyExn) :
    (literal_eval s = some v →
      NativeSandboxTemplate_render handle (.ok [.str s]) = .ok v) ∧
    (literal_eval s = none →
      NativeSandboxTemplate_render handle (.ok [.str s]) = .ok (.str s)) ∧
    NativeSandboxTemplate_render handle (.ok [.str "[1, 2, 3]"]) =
      .ok (.list [.int 1, .int 2, .int 3]) ∧
    NativeSandboxTemplate_render handle (.ok [.str "hello"]) = .ok (.str "hello") ∧
    NativeSandboxTemplate_render handle (.error e) = .error (handle e) := by
  refine ⟨?_, ?_, rfl, rfl, rfl⟩
  · intro h
    simp [NativeSandboxTemplate_render, native_concat, nativeFinalize, h]
  · intro h
    simp [NativeSandboxTemplate_render, native_concat, nativeFinalize, h]

/-- Witness for C5: the hypotheses hold concretely for "True" (parseable) and
"hello" (unparseable). -/
theorem claim_C5_witness :
    (literal_eval "True" = some (.bool true) ∧
      NativeSandboxTemplate_render id (.ok [.str "True"]) = .ok (.bool true)) ∧
    (literal_eval "hello" = none ∧
      NativeSandboxTemplate_render id (.ok [.str "hello"]) = .ok (.str "hello")) :=
  ⟨⟨rfl, (claim_C5_native_rendering id "True" (.bool true) (.internalException "x")).1 rfl⟩,
   ⟨rfl, (claim_C5_native_rendering id "hello" (.bool true) (.internalException "x")).2.1 rfl⟩⟩

/-! ### Template cache (jinja.py lines 128-152) -/

/-- The owning node fields used by `TemplateCache.get_node_template`. -/
structure SourceNode where
  package_name : String
  original_file_path : String
  raw_sql : String
deriving Repr, DecidableEq

/-- A compiled template.  `instanceId` is a ghost tag — the value of the
compile counter at the moment of compilation — so "the identical compiled
template instance" is expressible in a pure model. -/
structure CompiledTemplate where
  src : String
  instanceId : Nat
deriving Repr, DecidableEq

/-- Embeds `TemplateCache` (lines 128-152): `file_cache` maps
`(package_name, original_file_path)` keys to compiled templates.
`compiles` is a ghost counter of how many compilations (`get_template` on a
cache miss, line 139) have been performed. -/
structure TemplateCacheState where
  file_cache : List ((String × String) × CompiledTemplate)
  compiles : Nat
deriving Repr, DecidableEq

def lookupKey (key : String × String) :
    List ((String × String) × CompiledTemplate) → Option CompiledTemplate
  | [] => none
  | (k, t) :: rest => if k = key then some t else lookupKey key rest

/-- Embeds `TemplateCache.get_node_template` (lines 133-146): hit returns the cached
template unchanged; miss compiles the node's raw source and stores the
result under the key. -/
def TemplateCacheState.get_node_template (c : TemplateCacheState) (n : SourceNode) :
    CompiledTemplate × TemplateCacheState :=
  let key := (n.package_name, n.original_file_path)
  match lookupKey key c.file_cache with
  | some t => (t, c)
  | none =>
    let t : CompiledTemplate := { src := n.raw_sql, instanceId := c.compiles }
    (t, { file_cache := c.file_cache ++ [(key, t)], compiles := c.compiles + 1 })

/-- Embeds `TemplateCache.clear` (lines 148-149). -/
def TemplateCacheState.clear (c : TemplateCacheState) : TemplateCacheState :=
  { c with file_cache := [] }

theorem lookupKey_append_self (key : String × String) (t : CompiledTemplate)
    (l : List ((String × String) × CompiledTemplate)) (h : lookupKey key l = none) :
    lookupKey key (l ++ [(key, t)]) = some t := by
  induction l with
  | nil => simp [lookupKey]
  | cons p rest ih =>
    obtain ⟨k, t'⟩ := p
    by_cases hk : k = key
    · simp [lookupKey, hk] at h
    · simp only [lookupKey, hk, if_neg hk, List.cons_append] at h ⊢
      exact ih h

/-- C7: the template cache memoizes per (package name, original file path)
key — (a) after any lookup, a second lookup with the same key returns the
identical compiled template instance and leaves cache and compile counter
untouched (no recompilation); (b) a miss compiles the node's raw source
(bumping the compile counter) and stores the result under the key; (c)
`clear()` empties the cache, so the next lookup recompiles (the compile
counter increases). -/
theorem claim_C7_template_cache (c : TemplateCacheState) (n : SourceNode) :
    (∀ t c', c.get_node_template n = (t, c') → c'.get_node_template n = (t, c')) ∧
    (lookupKey (n.package_name, n.original_file_path) c.file_cache = none →
      c.get_node_template n =
        ({ src := n.raw_sql, instanceId := c.compiles },
         { file_cache := c.file_cache ++
             [((n.package_name, n.original_file_path),
               { src := n.raw_sql, instanceId := c.compiles })],
           compiles := c.compiles + 1 }) ∧
      lookupKey (n.package_name, n.original_file_path)
          (c.get_node_template n).2.file_cache =
        some { src := n.raw_sql, instanceId := c.compiles }) ∧
    (c.clear.file_cache = [] ∧
      (c.clear.get_node_template n).2.compiles = c.compiles + 1) := by
  refine ⟨?_, ?_, rfl, rfl⟩
  · intro t c' h
    cases hl : lookupKey (n.package_name, n.original_file_path) c.file_cache with
    | some t0 =>
      simp only [TemplateCacheState.get_node_template, hl] at h
      injection h with h1 h2
      subst h1
      subst h2
      simp only [TemplateCacheState.get_node_template, hl]
    | none =>
      simp only [TemplateCacheState.get_node_template, hl] at h
      injection h with h1 h2
      subst h1
      subst h2
      simp only [TemplateCacheState.get_node_template,
        lookupKey_append_self _ _ _ hl]
  · intro hl
    refine ⟨?_, ?_⟩
    · simp only [TemplateCacheState.get_node_template, hl]
    · simp only [TemplateCacheState.get_node_template, hl,
        lookupKey_append_self _ _ _ hl]

/-- Witness for C7: an empty cache; miss, hit and clear behave as stated. -/
theorem claim_C7_witness :
    (({ file_cache := [(("pkg", "m.sql"), { src := "select 1", instanceId := 0 })],
        compiles := 1 } : TemplateCacheState).get_node_template
          { package_name := "pkg", original_file_path := "m.sql", raw_sql := "select 1" } =
      ({ src := "select 1", instanceId := 0 },
       { file_cache := [(("pkg", "m.sql"), { src := "select 1", instanceId := 0 })],
         compiles := 1 })) ∧
    (({ file_cache := [], compiles := 0 } : TemplateCacheState).get_node_template
          { package_name := "pkg", original_file_path := "m.sql", raw_sql := "select 1" } =
        ({ src := "select 1", instanceId := 0 },
         { file_cache := [(("pkg", "m.sql"), { src := "select 1", instanceId := 0 })],
           compiles := 1 }) ∧
      lookupKey ("pkg", "m.sql")
          ((({ file_cache := [], compiles := 0 } : TemplateCacheState).get_node_template
            { package_name := "pkg", original_file_path := "m.sql",
              raw_sql := "select 1" }).2.file_cache) =
        some { src := "select 1", instanceId := 0 }) ∧
    (({ file_cache := [], compiles := 0 } : TemplateCacheState).clear.file_cache = [] ∧
      (({ file_cache := [], compiles := 0 } : TemplateCacheState).clear.get_node_template
        { package_name := "pkg", original_file_path := "m.sql",
          raw_sql := "select 1" }).2.compiles = 0 + 1) :=
  ⟨(claim_C7_template_cache { file_cache := [], compiles := 0 }
      { package_name := "pkg", original_file_path := "m.sql", raw_sql := "select 1" }).1
      { src := "select 1", instanceId := 0 }
      { file_cache := [(("pkg", "m.sql"), { src := "select 1", instanceId := 0 })],
        compiles := 1 } rfl,
   (claim_C7_template_cache { file_cache := [], compiles := 0 }
      { package_name := "pkg", original_file_path := "m.sql", raw_sql := "select 1" }).2.1 rfl,
   (claim_C7_template_cache { file_cache := [], compiles := 0 }
      { package_name := "pkg", original_file_path := "m.sql", raw_sql := "select 1" }).2.2⟩

/-! ### Materialization grammar extension (jinja.py lines 289-324) -/

/-- Modelled from the spec: the macro-name manglers from dbt.utils (not under
src/), deterministic prefix-based rewrites (spec section 4.2), with the
materialization mangle parameterized by the adapter. -/
def get_dbt_macro_name (nm : String) : String := "dbt_macro__" ++ nm

def get_materialization_macro_name (materialization_name adapter : String) : String :=
  get_dbt_macro_name ("materialization_" ++ materialization_name ++ "_" ++ adapter)

def get_docs_macro_name (nm : String) : String := "dbt_docs__" ++ nm

/-- The token stream the materialization tag parser consumes after the
`materialization` keyword: names, commas, `=`, expression literals and the
closing `%}` of the opening tag. -/
inductive PTok where
  | comma
  | ident (s : String)
  | assign
  | lit (s : String)
  | blockEnd
deriving Repr, DecidableEq

/-- Parse-time failures: `invalid_materialization_argument(name, arg)` from
dbt.exceptions naming the materialization and the offending argument, or an
underlying template-grammar syntax error. -/
inductive PErr where
  | invalidMaterializationArgument (materialization_name offending : String)
  | templateSyntaxError (msg : String)
deriving Repr, DecidableEq

/-- Embeds `parser.parse_assign_target(name_only=True)`: expects a name token. -/
def parse_assign_target : List PTok → Except PErr (String × List PTok)
  | .ident s :: rest => .ok (s, rest)
  | _ => .error (.templateSyntaxError "expected name")

/-- Embeds `parser.parse_statements` with `drop_needle=True`: consume
body tokens up to (and dropping) the end-tag name. -/
def parse_statements_until (needle : String) : List PTok → Option (List PTok × List PTok)
  | [] => none
  | t :: rest =>
    match t with
    | .ident s =>
      if s = needle then some ([], rest)
      else
        match parse_statements_until needle rest with
        | some (b, r) => some (t :: b, r)
        | none => none
    | _ =>
      match parse_statements_until needle rest with
      | some (b, r) => some (t :: b, r)
      | none => none

/-- The modifier loop of `MaterializationExtension.parse` (lines 301-315):
while the next token is a comma, parse a name; `default` is a no-op,
`adapter` expects `=` and a literal and replaces the adapter name, anything
else raises `invalid_materialization_argument` naming the offending
argument. -/
def parse_modifiers (materialization_name : String) :
    List PTok → String → Except PErr (String × List PTok)
  | .comma :: rest, adapter_name =>
    (match rest with
     | .ident "default" :: rest2 => parse_modifiers materialization_name rest2 adapter_name
     | .ident "adapter" :: rest2 =>
       (match rest2 with
        | .assign :: .lit v :: rest3 => parse_modifiers materialization_name rest3 v
        | _ => .error (.templateSyntaxError "expected token assign"))
     | .ident other :: _ =>
       .error (.invalidMaterializationArgument materialization_name other)
     | _ => .error (.templateSyntaxError "expected name"))
  | toks, adapter_name => .ok (adapter_name, toks)

/-- The macro node emitted for a materialization block: mangled name, empty
parameter list and defaults (lines 298-299), and the body up to the
`endmaterialization` terminator. -/
structure MaterializationNode where
  name : String
  args : List String
  defaults : List String
  body : List PTok
deriving Repr, DecidableEq

/-- Embeds `MaterializationExtension.parse` (lines 292-324): parse the
materialization name, run the modifier loop starting from adapter name
'default', mangle the name with the final adapter, and parse the zero-arg
body up to `endmaterialization`. -/
def MaterializationExtension_parse (toks : List PTok) : Except PErr MaterializationNode :=
  match parse_assign_target toks with
  | .error e => .error e
  | .ok (materialization_name, rest) =>
    match parse_modifiers materialization_name rest "default" with
    | .error e => .error e
    | .ok (adapter_name, rest2) =>
      match rest2 with
      | .blockEnd :: rest3 =>
        (match parse_statements_until "endmaterialization" rest3 with
         | some (body, _) =>
           .ok { name := get_materialization_macro_name materialization_name adapter_name,
                 args := [], defaults := [], body := body }
         | none => .error (.templateSyntaxError "unterminated materialization block"))
      | _ => .error (.templateSyntaxError "expected end of block")

/-- Whether a token is the given end-tag name. -/
def isIdentTok (needle : String) : PTok → Bool
  | .ident s => s = needle
  | _ => false

theorem parse_statements_until_append (needle : String) (body rest : List PTok)
    (h : body.all (fun t => !(isIdentTok needle t)) = true) :
    parse_statements_until needle (body ++ .ident needle :: rest) = some (body, rest) := by
  induction body with
  | nil => simp [parse_statements_until]
  | cons t ts ih =>
    simp only [List.all_cons, Bool.and_eq_true, Bool.not_eq_true'] at h
    obtain ⟨ht, hts⟩ := h
    have ih' := ih hts
    cases t with
    | ident s =>
      simp only [isIdentTok, decide_eq_false_iff_not] at ht
      simp [parse_statements_until, ht, ih']
    | comma => simp [parse_statements_until, ih']
    | assign => simp [parse_statements_until, ih']
    | lit v => simp [parse_statements_until, ih']
    | blockEnd => simp [parse_statements_until, ih']

/-- C8: parsing a materialization tag accepts exactly the two optional
modifiers — positional `default` (a no-op) and keyword `adapter=<literal>`
(which sets the adapter name, the fixed sentinel 'default' being used when
absent); any other modifier name raises the parse-time error naming the
offending argument; and the produced macro has zero parameters with a body
running to the `endmaterialization` terminator. -/
theorem claim_C8_materialization_modifiers (matName adapterV other : String)
    (body rest : List PTok)
    (hb : body.all (fun t => !(isIdentTok "endmaterialization" t)) = true)
    (hother : other ≠ "default") (hother2 : other ≠ "adapter") :
    MaterializationExtension_parse
        (.ident matName :: .blockEnd :: body ++ .ident "endmaterialization" :: rest) =
      .ok { name := get_materialization_macro_name matName "default",
            args := [], defaults := [], body := body } ∧
    MaterializationExtension_parse
        (.ident matName :: .comma :: .ident "default" :: .blockEnd ::
          body ++ .ident "endmaterialization" :: rest) =
      .ok { name := get_materialization_macro_name matName "default",
            args := [], defaults := [], body := body } ∧
    MaterializationExtension_parse
        (.ident matName :: .comma :: .ident "adapter" :: .assign :: .lit adapterV ::
          .blockEnd :: body ++ .ident "endmaterialization" :: rest) =
      .ok { name := get_materialization_macro_name matName adapterV,
            args := [], defaults := [], body := body } ∧
    MaterializationExtension_parse
        (.ident matName :: .comma :: .ident other :: .blockEnd ::
          body ++ .ident "endmaterialization" :: rest) =
      .error (.invalidMaterializationArgument matName other) := by
  have hps := parse_statements_until_append "endmaterialization" body rest hb
  refine ⟨?_, ?_, ?_, ?_⟩
  · simp [MaterializationExtension_parse, parse_assign_target, parse_modifiers, hps]
  · simp [MaterializationExtension_parse, parse_assign_target, parse_modifiers, hps]
  · simp [MaterializationExtension_parse, parse_assign_target, parse_modifiers, hps]
  · simp [MaterializationExtension_parse, parse_assign_target, parse_modifiers,
      hother, hother2]

/-- Witness for C8 at a concrete tag: `materialization tbl, adapter='pg'`
with body `select`, and the rejected modifier `bogus`. -/
theorem claim_C8_witness :
    MaterializationExtension_parse
        [.ident "tbl", .blockEnd, .ident "select", .ident "endmaterialization"] =
      .ok { name := "dbt_macro__materialization_tbl_default",
            args := [], defaults := [], body := [.ident "select"] } ∧
    MaterializationExtension_parse
        [.ident "tbl", .comma, .ident "default", .blockEnd,
         .ident "select", .ident "endmaterialization"] =
      .ok { name := "dbt_macro__materialization_tbl_default",
            args := [], defaults := [], body := [.ident "select"] } ∧
    MaterializationExtension_parse
        [.ident "tbl", .comma, .ident "adapter", .assign, .lit "pg", .blockEnd,
         .ident "select", .ident "endmaterialization"] =
      .ok { name := "dbt_macro__materialization_tbl_pg",
            args := [], defaults := [], body := [.ident "select"] } ∧
    MaterializationExtension_parse
        [.ident "tbl", .comma, .ident "bogus", .blockEnd,
         .ident "select", .ident "endmaterialization"] =
      .error (.invalidMaterializationArgument "tbl" "bogus") :=
  claim_C8_materialization_modifiers "tbl" "pg" "bogus"
    [.ident "select"] [] (by decide) (by decide) (by decide)

/-! ### Top-level block extraction (jinja.py lines 467-489)

`extract_toplevel_blocks` delegates to `BlockIterator.lex_for_blocks` from
dbt/clients/_jinja_blocks.py, which is not under src/; the lexer below is
modelled from the spec (section 4.1).  The input is modelled one level above
raw characters: a list of lexical tokens, each carrying its raw source text
(raw data runs, block open/close tags, and control-construct open/close tags
for if/for nesting).  Quoted literals and comments are opaque spans inside
`text` tokens, which is exactly the spec's rule (b) that they never trigger
matches. -/

/-- A lexical token of the template text, with its raw text given by
`RawTok.raw`. -/
inductive RawTok where
  | text (s : String)
  | blockStart (kind tagname : String)
  | blockEnd (kind : String)
  | ctrlStart (kind : String)
  | ctrlEnd (kind : String)
deriving Repr, DecidableEq

def RawTok.raw : RawTok → String
  | .text s => s
  | .blockStart k n => "\x7b% " ++ k ++ " " ++ n ++ " %\x7d"
  | .blockEnd k => "\x7b% end" ++ k ++ " %\x7d"
  | .ctrlStart k => "\x7b% " ++ k ++ " %\x7d"
  | .ctrlEnd k => "\x7b% end" ++ k ++ " %\x7d"

/-- The records produced by the lexer: matched `BlockTag`s and, when
`collect_raw_data` is set, interstitial `BlockData` (block type name
`__dbt_data`, never a block name). -/
inductive BlockLike where
  | blockData (rawText : String)
  | blockTag (kind tagname rawText : String)
deriving Repr, DecidableEq

def BlockLike.raw : BlockLike → String
  | .blockData s => s
  | .blockTag _ _ s => s

def BlockLike.isTag : BlockLike → Bool
  | .blockTag _ _ _ => true
  | .blockData _ => false

/-- Modelled from the spec: emit accumulated raw data (when requested and
nonempty) as a `BlockData` record. -/
def flushData (collect_raw_data : Bool) (acc : String) (out : List BlockLike) : List BlockLike :=
  if collect_raw_data = true ∧ acc ≠ "" then out ++ [.blockData acc] else out

/-- Lexer mode: scanning at control-nesting depth `d` accumulating raw data,
or inside an allowed block accumulating its body. -/
inductive LexState where
  | top (depth : Nat) (dataAcc : String)
  | inBlock (kind tagname bodyAcc : String)
deriving Repr, DecidableEq

/-- Modelled from the spec: `BlockIterator.lex_for_blocks` (spec section
4.1).  A block tag is recognized only at control-construct nesting depth 0;
tags of kinds outside the allowed set are raw data; an unterminated control
construct or block, or an unmatched end tag of an allowed kind, is a hard
error (`none`). -/
def lexGo (allowed : List String) (cr : Bool) :
    List RawTok → LexState → List BlockLike → Option (List BlockLike)
  | [], .top 0 acc, out => some (flushData cr acc out)
  | [], .top (_ + 1) _, _ => none
  | [], .inBlock _ _ _, _ => none
  | tok :: rest, .top d acc, out =>
    (match tok, d with
     | .ctrlStart k, d => lexGo allowed cr rest (.top (d + 1) (acc ++ (RawTok.ctrlStart k).raw)) out
     | .ctrlEnd k, dd + 1 => lexGo allowed cr rest (.top dd (acc ++ (RawTok.ctrlEnd k).raw)) out
     | .ctrlEnd _, 0 => none
     | .blockStart k n, 0 =>
       if k ∈ allowed then
         lexGo allowed cr rest (.inBlock k n "") (flushData cr acc out)
       else lexGo allowed cr rest (.top 0 (acc ++ (RawTok.blockStart k n).raw)) out
     | .blockStart k n, dd + 1 =>
       lexGo allowed cr rest (.top (dd + 1) (acc ++ (RawTok.blockStart k n).raw)) out
     | .blockEnd k, 0 =>
       if k ∈ allowed then none
       else lexGo allowed cr rest (.top 0 (acc ++ (RawTok.blockEnd k).raw)) out
     | .blockEnd k, dd + 1 =>
       lexGo allowed cr rest (.top (dd + 1) (acc ++ (RawTok.blockEnd k).raw)) out
     | .text s, d => lexGo allowed cr rest (.top d (acc ++ s)) out)
  | tok :: rest, .inBlock k n bacc, out =>
    (match tok with
     | .blockEnd k2 =>
       if k2 = k then
         lexGo allowed cr rest (.top 0 "")
           (out ++ [.blockTag k n ((RawTok.blockStart k n).raw ++ bacc ++ (RawTok.blockEnd k).raw)])
       else lexGo allowed cr rest (.inBlock k n (bacc ++ (RawTok.blockEnd k2).raw)) out
     | t => lexGo allowed cr rest (.inBlock k n (bacc ++ t.raw)) out)

/-- Modelled from the spec: the default allowed block kinds used when the
caller passes `None` (spec section 4.1, edge case). -/
def default_allowed_blocks : List String := ["macro", "test", "materialization", "docs"]

/-- Embeds `extract_toplevel_blocks` (lines 467-489): run the block lexer with the
given (or default) allowed kinds and the `collect_raw_data` flag. -/
def extract_toplevel_blocks (toks : List RawTok)
    (allowed_blocks : Option (List String)) (collect_raw_data : Bool) :
    Option (List BlockLike) :=
  lexGo (allowed_blocks.getD default_allowed_blocks) collect_raw_data toks (.top 0 "") []

mutual

/-- A well-formed template text: raw chunks, balanced control constructs
with well-formed content, and blocks with opaque bodies. -/
inductive Elem where
  | chunk (s : String)
  | ctrl (kind : String) (body : ElemList)
  | blk (kind tagname inner : String)

inductive ElemList where
  | nil
  | cons (head : Elem) (tail : ElemList)

end

mutual

def Elem.toks : Elem → List RawTok
  | .chunk s => [.text s]
  | .ctrl k b => .ctrlStart k :: (ElemList.toks b ++ [.ctrlEnd k])
  | .blk k n i => [.blockStart k n, .text i, .blockEnd k]

def ElemList.toks : ElemList → List RawTok
  | .nil => []
  | .cons e es => Elem.toks e ++ ElemList.toks es

end

/-- Concatenated raw text of a token list — the original template text. -/
def rawJoin (toks : List RawTok) : String := strConcat (toks.map RawTok.raw)

/-- Concatenated raw spans of the lexer's output records. -/
def outJoin (recs : List BlockLike) : String := strConcat (recs.map BlockLike.raw)

/-- Every top-level block of the text has an allowed kind. -/
def ElemList.topAllowed (allowed : List String) : ElemList → Bool
  | .nil => true
  | .cons (.blk k _ _) es => decide (k ∈ allowed) && ElemList.topAllowed allowed es
  | .cons _ es => ElemList.topAllowed allowed es

/-- The raw span of one block: opening tag, body, closing tag. -/
def tagRawOf (k n i : String) : String :=
  (RawTok.blockStart k n).raw ++ i ++ (RawTok.blockEnd k).raw

/-- The block tags a well-formed text contains at top level, in source
order. -/
def ElemList.topTags : ElemList → List BlockLike
  | .nil => []
  | .cons (.blk k n i) es => .blockTag k n (tagRawOf k n i) :: ElemList.topTags es
  | .cons _ es => ElemList.topTags es

/-- Accumulator-level description of one top-level pass of the lexer over a
well-formed text (proof machinery for the claim below). -/
def ElemList.lexExpected : ElemList → String → List BlockLike → String × List BlockLike
  | .nil, acc, out => (acc, out)
  | .cons (.chunk s) es, acc, out => ElemList.lexExpected es (acc ++ s) out
  | .cons (.ctrl k b) es, acc, out =>
    ElemList.lexExpected es
      (acc ++ ((RawTok.ctrlStart k).raw ++ (rawJoin (ElemList.toks b) ++ (RawTok.ctrlEnd k).raw)))
      out
  | .cons (.blk k n i) es, acc, out =>
    ElemList.lexExpected es "" (flushData true acc out ++ [.blockTag k n (tagRawOf k n i)])

@[simp] theorem strConcat_append (l1 l2 : List String) :
    strConcat (l1 ++ l2) = strConcat l1 ++ strConcat l2 := by
  induction l1 with
  | nil => simp [strConcat, String.empty_append]
  | cons s ss ih => simp [strConcat, ih, String.append_assoc]

@[simp] theorem rawJoin_nil : rawJoin [] = "" := rfl

@[simp] theorem rawJoin_cons (t : RawTok) (ts : List RawTok) :
    rawJoin (t :: ts) = t.raw ++ rawJoin ts := rfl

@[simp] theorem rawJoin_append (l1 l2 : List RawTok) :
    rawJoin (l1 ++ l2) = rawJoin l1 ++ rawJoin l2 := by
  simp [rawJoin, List.map_append]

@[simp] theorem outJoin_nil : outJoin [] = "" := rfl

@[simp] theorem outJoin_cons (b : BlockLike) (l : List BlockLike) :
    outJoin (b :: l) = b.raw ++ outJoin l := rfl

@[simp] theorem RawTok.raw_text (s : String) : (RawTok.text s).raw = s := rfl

@[simp] theorem outJoin_append (l1 l2 : List BlockLike) :
    outJoin (l1 ++ l2) = outJoin l1 ++ outJoin l2 := by
  simp [outJoin, List.map_append]

theorem filter_flushData (cr : Bool) (a : String) (o : List BlockLike) :
    (flushData cr a o).filter BlockLike.isTag = o.filter BlockLike.isTag := by
  by_cases h : cr = true ∧ a ≠ "" <;> simp [flushData, h, BlockLike.isTag]

theorem outJoin_flushData (a : String) (o : List BlockLike) :
    outJoin (flushData true a o) = outJoin o ++ a := by
  by_cases h : a = ""
  · simp [flushData, h, String.append_empty]
  · simp [flushData, h, outJoin, strConcat, BlockLike.raw, String.append_empty]

mutual

/-- Inside a control construct (depth ≥ 1) every token of a well-formed
element is consumed as raw data: no block extraction happens. -/
theorem lexGo_inert_elem (allowed : List String) (cr : Bool) (e : Elem)
    (rest : List RawTok) (d : Nat) (acc : String) (out : List BlockLike) :
    lexGo allowed cr (Elem.toks e ++ rest) (.top (d + 1) acc) out =
      lexGo allowed cr rest (.top (d + 1) (acc ++ rawJoin (Elem.toks e))) out := by
  cases e with
  | chunk s =>
    simp [Elem.toks, lexGo, RawTok.raw, String.append_empty]
  | ctrl k b =>
    have hb := lexGo_inert_list allowed cr b ([RawTok.ctrlEnd k] ++ rest) (d + 1)
      (acc ++ (RawTok.ctrlStart k).raw) out
    simp only [Elem.toks, List.cons_append, List.append_assoc] at hb ⊢
    simp only [lexGo]
    rw [hb]
    simp [lexGo, rawJoin_append, String.append_assoc, String.append_empty]
  | blk k n i =>
    simp [Elem.toks, lexGo, RawTok.raw, String.append_assoc, String.append_empty]

theorem lexGo_inert_list (allowed : List String) (cr : Bool) (es : ElemList)
    (rest : List RawTok) (d : Nat) (acc : String) (out : List BlockLike) :
    lexGo allowed cr (ElemList.toks es ++ rest) (.top (d + 1) acc) out =
      lexGo allowed cr rest (.top (d + 1) (acc ++ rawJoin (ElemList.toks es))) out := by
  cases es with
  | nil => simp [ElemList.toks, String.append_empty]
  | cons e es =>
    have he := lexGo_inert_elem allowed cr e (ElemList.toks es ++ rest) d acc out
    have hes := lexGo_inert_list allowed cr es rest d (acc ++ rawJoin (Elem.toks e)) out
    simp only [ElemList.toks, List.append_assoc] at he hes ⊢
    rw [he, hes]
    simp [rawJoin_append, String.append_assoc]

end

/-- One top-level pass of the lexer over a well-formed text with all
top-level block kinds allowed behaves as `lexExpected` describes. -/
theorem lexGo_top (allowed : List String) (es : ElemList) (rest : List RawTok)
    (acc : String) (out : List BlockLike)
    (h : ElemList.topAllowed allowed es = true) :
    lexGo allowed true (ElemList.toks es ++ rest) (.top 0 acc) out =
      lexGo allowed true rest (.top 0 (ElemList.lexExpected es acc out).1)
        (ElemList.lexExpected es acc out).2 := by
  cases es with
  | nil => simp [ElemList.toks, ElemList.lexExpected]
  | cons e es =>
    cases e with
    | chunk s =>
      have h' : ElemList.topAllowed allowed es = true := by
        simpa [ElemList.topAllowed] using h
      have ih := lexGo_top allowed es rest (acc ++ s) out h'
      simp only [ElemList.toks, Elem.toks, List.cons_append, List.nil_append,
        List.append_assoc] at ih ⊢
      simp only [lexGo, ElemList.lexExpected]
      exact ih
    | ctrl k b =>
      have h' : ElemList.topAllowed allowed es = true := by
        simpa [ElemList.topAllowed] using h
      have hb := lexGo_inert_list allowed true b ([RawTok.ctrlEnd k] ++ (ElemList.toks es ++ rest))
        0 (acc ++ (RawTok.ctrlStart k).raw) out
      have ih := lexGo_top allowed es rest
        ((acc ++ (RawTok.ctrlStart k).raw ++ rawJoin (ElemList.toks b)) ++ (RawTok.ctrlEnd k).raw)
        out h'
      simp only [ElemList.toks, Elem.toks, List.cons_append, List.append_assoc] at hb ih ⊢
      simp only [lexGo]
      rw [hb]
      simp only [lexGo, List.nil_append] at ih ⊢
      rw [ih]
      simp [ElemList.lexExpected, String.append_assoc]
    | blk k n i =>
      have hk : k ∈ allowed ∧ ElemList.topAllowed allowed es = true := by
        simpa [ElemList.topAllowed, Bool.and_eq_true, decide_eq_true_eq] using h
      have ih := lexGo_top allowed es rest ""
        (flushData true acc out ++ [.blockTag k n (tagRawOf k n i)]) hk.2
      simp only [ElemList.toks, Elem.toks, List.cons_append, List.nil_append,
        List.append_assoc] at ih ⊢
      simp only [lexGo, hk.1, if_pos]
      simp only [ElemList.lexExpected, tagRawOf, String.empty_append]
      exact ih

/-- The block-tag records of a pass are the input's top-level tags, in
order, appended to whatever tags were already emitted. -/
theorem lexExpected_tags (es : ElemList) (acc : String) (out : List BlockLike) :
    ((ElemList.lexExpected es acc out).2).filter BlockLike.isTag =
      out.filter BlockLike.isTag ++ ElemList.topTags es := by
  cases es with
  | nil => simp [ElemList.lexExpected, ElemList.topTags]
  | cons e es =>
    cases e with
    | chunk s =>
      simp [ElemList.lexExpected, ElemList.topTags, lexExpected_tags es (acc ++ s) out]
    | ctrl k b =>
      simp [ElemList.lexExpected, ElemList.topTags,
        lexExpected_tags es
          (acc ++ ((RawTok.ctrlStart k).raw ++ (rawJoin (ElemList.toks b) ++ (RawTok.ctrlEnd k).raw)))
          out]
    | blk k n i =>
      have ih := lexExpected_tags es ""
        (flushData true acc out ++ [.blockTag k n (tagRawOf k n i)])
      simp [ElemList.lexExpected, ElemList.topTags, ih, List.filter_append,
        filter_flushData, BlockLike.isTag]

/-- The concatenated raw spans of a pass's records reconstruct exactly the
already-emitted spans, the pending raw data and the input's text. -/
theorem lexExpected_join (es : ElemList) (acc : String) (out : List BlockLike) :
    outJoin ((ElemList.lexExpected es acc out).2) ++ (ElemList.lexExpected es acc out).1 =
      outJoin out ++ (acc ++ rawJoin (ElemList.toks es)) := by
  cases es with
  | nil => simp [ElemList.lexExpected, ElemList.toks, String.append_empty]
  | cons e es =>
    cases e with
    | chunk s =>
      have ih := lexExpected_join es (acc ++ s) out
      simp only [ElemList.lexExpected]
      rw [ih]
      simp [ElemList.toks, Elem.toks, String.append_assoc, String.append_empty]
    | ctrl k b =>
      have ih := lexExpected_join es
        (acc ++ ((RawTok.ctrlStart k).raw ++ (rawJoin (ElemList.toks b) ++ (RawTok.ctrlEnd k).raw)))
        out
      simp only [ElemList.lexExpected]
      rw [ih]
      simp [ElemList.toks, Elem.toks, String.append_assoc, String.append_empty]
    | blk k n i =>
      have ih := lexExpected_join es ""
        (flushData true acc out ++ [.blockTag k n (tagRawOf k n i)])
      simp only [ElemList.lexExpected]
      rw [ih]
      simp only [outJoin_append, outJoin_flushData, outJoin_cons, outJoin_nil,
        BlockLike.raw, tagRawOf, ElemList.toks, Elem.toks]
      simp [RawTok.raw_text, String.append_assoc, String.append_empty,
        String.empty_append]

/-- C6: for every well-formed template text whose top-level blocks all have
allowed kinds, `extract_toplevel_blocks` succeeds, its Block Tag records are
exactly the text's top-level blocks in source order (one per block), and —
with `collect_raw_data` enabled — the concatenation of all records' raw
spans reconstructs the original text exactly, with no gaps and no
overlaps. -/
theorem claim_C6_block_extraction (es : ElemList) (allowed : List String)
    (h : ElemList.topAllowed allowed es = true) :
    ∃ recs, extract_toplevel_blocks (ElemList.toks es) (some allowed) true = some recs ∧
      recs.filter BlockLike.isTag = ElemList.topTags es ∧
      outJoin recs = rawJoin (ElemList.toks es) := by
  have hmain := lexGo_top allowed es [] "" [] h
  simp only [List.append_nil] at hmain
  refine ⟨flushData true (ElemList.lexExpected es "" []).1 (ElemList.lexExpected es "" []).2,
    ?_, ?_, ?_⟩
  · show lexGo allowed true (ElemList.toks es) (.top 0 "") [] = _
    rw [hmain]
    rfl
  · rw [filter_flushData, lexExpected_tags]
    simp
  · rw [outJoin_flushData, lexExpected_join]
    simp [String.empty_append]

/-- Witness for C6: a text with a raw chunk, one allowed `docs` block and a
control construct hiding a nested `macro` block; extraction yields exactly
one tag and reconstructs the text. -/
theorem claim_C6_witness :
    ElemList.topAllowed ["docs", "macro"]
      (ElemList.cons (.chunk "select 1 ")
        (ElemList.cons (.blk "docs" "d" " body ")
          (ElemList.cons (.ctrl "if" (ElemList.cons (.blk "macro" "m" "x") ElemList.nil))
            ElemList.nil))) = true ∧
    ∃ recs,
      extract_toplevel_blocks
          (ElemList.toks
            (ElemList.cons (.chunk "select 1 ")
              (ElemList.cons (.blk "docs" "d" " body ")
                (ElemList.cons (.ctrl "if" (ElemList.cons (.blk "macro" "m" "x") ElemList.nil))
                  ElemList.nil))))
          (some ["docs", "macro"]) true = some recs ∧
      recs.filter BlockLike.isTag =
        ElemList.topTags
          (ElemList.cons (.chunk "select 1 ")
            (ElemList.cons (.blk "docs" "d" " body ")
              (ElemList.cons (.ctrl "if" (ElemList.cons (.blk "macro" "m" "x") ElemList.nil))
                ElemList.nil))) ∧
      outJoin recs =
        rawJoin
          (ElemList.toks
            (ElemList.cons (.chunk "select 1 ")
              (ElemList.cons (.blk "docs" "d" " body ")
                (ElemList.cons (.ctrl "if" (ElemList.cons (.blk "macro" "m" "x") ElemList.nil))
                  ElemList.nil)))) :=
  ⟨by decide,
   claim_C6_block_extraction
     (ElemList.cons (.chunk "select 1 ")
       (ElemList.cons (.blk "docs" "d" " body ")
         (ElemList.cons (.ctrl "if" (ElemList.cons (.blk "macro" "m" "x") ElemList.nil))
           ElemList.nil)))
     ["docs", "macro"] (by decide)⟩

/-! ### Rendered schema-test kwargs (jinja.py lines 492-521) -/

/-- The tail of the call pattern after the function name: `\s*\(.+\)\s*$` —
optional whitespace, `(`, at least one non-newline character, `)`, trailing
whitespace. -/
def matchCallTail (cs : List Char) : Bool :=
  match skipSpaces cs with
  | '(' :: rest =>
    (match rest.reverse.dropWhile isPySpace with
     | ')' :: innerRev => innerRev ≠ [] && innerRev.all (fun c => !(c == '\n'))
     | _ => false)
  | _ => false

/-- The `looks_like_func` regex of `add_rendered_test_kwargs` (line 504):
`^\s*(env_var|ref|var|source|doc)\s*\(.+\)\s*$` as a decidable full-match
predicate. -/
def looks_like_func (s : String) : Bool :=
  let cs := skipSpaces s.toList
  ["env_var", "ref", "var", "source", "doc"].any fun f =>
    match stripPrefixChars f.toList cs with
    | some rest => matchCallTail rest
    | none => false

/-- Modelled from the spec: `get_rendered(value, ctx, node, native=True)` at
the template-engine boundary.  A text of the exact shape
`{{ <expr> }}` renders to the single node the context resolves the
expression to; plain text renders to itself.  Either way the produced nodes
go through the native concatenation of section 4.4c. -/
def get_rendered_native (resolve : String → PyVal) (s : String) : PyVal :=
  match stripPrefixChars ("\x7b\x7b ".toList) s.toList with
  | some rest =>
    (match stripPrefixChars ((" \x7d\x7d".toList).reverse) rest.reverse with
     | some innerRev => native_concat [resolve (String.mk innerRev.reverse)]
     | none => native_concat [.str s])
  | none => native_concat [.str s]

/-- Embeds `_convert_function` (lines 507-518): every string value is rendered
natively; values matching the reference-call pattern are first wrapped in
interpolation braces; non-string values pass through untouched. -/
def _convert_function (resolve : String → PyVal) (value : PyVal) : PyVal :=
  match value with
  | .str s =>
    get_rendered_native resolve
      (if looks_like_func s = true then "\x7b\x7b " ++ s ++ " \x7d\x7d" else s)
  | v => v

mutual

/-- Modelled from the spec: `deep_map` from dbt.utils (not under src/) —
apply the function to every leaf through arbitrarily nested
mapping/sequence structure (the keypath argument is ignored by the caller,
line 506). -/
def deep_map (f : PyVal → PyVal) : PyVal → PyVal
  | .list xs => .list (deep_map_list f xs)
  | .dict xs => .dict (deep_map_pairs f xs)
  | v => f v

def deep_map_list (f : PyVal → PyVal) : List PyVal → List PyVal
  | [] => []
  | x :: xs => deep_map f x :: deep_map_list f xs

def deep_map_pairs (f : PyVal → PyVal) : List (String × PyVal) → List (String × PyVal)
  | [] => []
  | (k, v) :: xs => (k, deep_map f v) :: deep_map_pairs f xs

end

def SCHEMA_TEST_KWARGS_NAME : String := "_dbt_schema_test_kwargs"

/-- Python dict assignment `context[key] = v`. -/
def ctxSet (ctx : List (String × PyVal)) (key : String) (v : PyVal) :
    List (String × PyVal) :=
  ctx.filter (fun p => p.1 != key) ++ [(key, v)]

/-- The schema-test node fields used: `node.test_metadata.kwargs`. -/
structure TestNode where
  kwargs : PyVal

/-- Embeds `add_rendered_test_kwargs` (lines 495-521): traverse the node's test
kwargs with `_convert_function` and store the result in the context under
the reserved schema-test key. -/
def add_rendered_test_kwargs (resolve : String → PyVal)
    (context : List (String × PyVal)) (node : TestNode) : List (String × PyVal) :=
  ctxSet context SCHEMA_TEST_KWARGS_NAME (deep_map (_convert_function resolve) node.kwargs)

theorem stripPrefixChars_append (p rest : List Char) :
    stripPrefixChars p (p ++ rest) = some rest := by
  induction p with
  | nil => rfl
  | cons a p ih => simp [stripPrefixChars, ih]

/-- Rendering a wrapped expression resolves it in the context and passes the
single produced node through native concatenation. -/
theorem get_rendered_native_wrapped (resolve : String → PyVal) (s : String) :
    get_rendered_native resolve ("\x7b\x7b " ++ s ++ " \x7d\x7d") =
      native_concat [resolve s] := by
  have h1 : ("\x7b\x7b " ++ s ++ " \x7d\x7d").toList =
      "\x7b\x7b ".toList ++ (s.toList ++ " \x7d\x7d".toList) := by
    simp [String.toList, String.data_append, List.append_assoc]
  have h2 : (s.toList ++ " \x7d\x7d".toList).reverse =
      (" \x7d\x7d".toList).reverse ++ s.toList.reverse := by
    simp [List.reverse_append]
  simp only [get_rendered_native, h1, stripPrefixChars_append, h2]
  simp [String.toList]

/-- Counterexample to C9 as stated: a non-call-shaped string leaf does not
pass through unchanged — the code native-renders every string leaf, so the
string "5" becomes the integer 5 (claimed: the string "5" stays a string).
-/
theorem claim_C9_counterexample :
    add_rendered_test_kwargs (fun _ => .int 42) []
      { kwargs := .dict [("a", .str "ref('x')"), ("b", .str "5")] } =
      [(SCHEMA_TEST_KWARGS_NAME, .dict [("a", .int 42), ("b", .int 5)])] ∧
    (PyVal.int 5 = PyVal.str "5" → False) := by
  constructor
  · have hw := get_rendered_native_wrapped (fun _ => PyVal.int 42) "ref('x')"
    have hl : looks_like_func "ref('x')" = true := by decide
    simp only [add_rendered_test_kwargs, ctxSet, deep_map, deep_map_pairs,
      _convert_function, hl, if_pos, hw]
    rfl
  · intro h
    exact PyVal.noConfusion h

/-- C9 (amended): `add_rendered_test_kwargs` traverses the kwargs through
arbitrarily nested mappings and sequences and stores the result under the
reserved schema-test key; every string leaf matching the reference-call
pattern is wrapped in interpolation syntax and native-rendered to its typed
value; non-string leaves pass through unchanged.  (Non-call-shaped string
leaves are still native-rendered — without wrapping — so a string that
parses as a literal becomes its typed value.) -/
theorem claim_C9_rendered_kwargs (resolve : String → PyVal)
    (ctx : List (String × PyVal)) (s1 s2 : String) (n1 n2 : Int)
    (hs1 : looks_like_func s1 = true) (hs2 : looks_like_func s2 = true) :
    add_rendered_test_kwargs resolve ctx
      { kwargs := .dict [("a", .str s1), ("b", .int n1),
                         ("c", .list [.dict [("d", .str s2)], .int n2])] } =
      ctx.filter (fun p => p.1 != SCHEMA_TEST_KWARGS_NAME) ++
        [(SCHEMA_TEST_KWARGS_NAME,
          .dict [("a", native_concat [resolve s1]), ("b", .int n1),
                 ("c", .list [.dict [("d", native_concat [resolve s2])], .int n2])])] := by
  simp only [add_rendered_test_kwargs, ctxSet, deep_map, deep_map_pairs, deep_map_list,
    _convert_function, hs1, hs2, if_pos, get_rendered_native_wrapped]

/-- Witness for C9 (amended): concrete call-shaped strings, a resolver and
nesting; the typed resolution survives, non-strings pass through. -/
theorem claim_C9_witness :
    looks_like_func "ref('x')" = true ∧
    looks_like_func "source('a', 'b')" = true ∧
    add_rendered_test_kwargs
        (fun e => if e = "ref('x')" then .list [.int 1, .int 2] else .noneV) []
        { kwargs := .dict [("a", .str "ref('x')"), ("b", .int 5),
                           ("c", .list [.dict [("d", .str "source('a', 'b')")], .int 7])] } =
      ([] : List (String × PyVal)).filter (fun p => p.1 != SCHEMA_TEST_KWARGS_NAME) ++
        [(SCHEMA_TEST_KWARGS_NAME,
          .dict [("a", native_concat
                    [(fun e => if e = "ref('x')" then PyVal.list [.int 1, .int 2]
                      else PyVal.noneV) "ref('x')"]),
                 ("b", .int 5),
                 ("c", .list [.dict [("d", native_concat
                    [(fun e => if e = "ref('x')" then PyVal.list [.int 1, .int 2]
                      else PyVal.noneV) "source('a', 'b')"])], .int 7])])] :=
  ⟨by decide, by decide,
   claim_C9_rendered_kwargs
     (fun e => if e = "ref('x')" then .list [.int 1, .int 2] else .noneV) []
     "ref('x')" "source('a', 'b')" 5 7 (by decide) (by decide)⟩
